import Mathlib

/-!
# Verification of the `@bnk/kv-store` key-value store engine

Shallow embedding of the TypeScript class `KeyValueStore`
(`key-value-store.ts`, src/unnamed/part_001) and of `FileAdapter.init`
(src/packages/kv-store/src/adapters/file-adapter.ts), together with
theorems settling the specification claims about them.

Modelling decisions, each matching the JavaScript semantics of the source:

* JavaScript runtime values are the inductive `JsValue`.  `JSON.stringify`
  throws precisely on values it cannot serialize; in the universe
  representable here (no reference cycles exist in an inductive type) that
  is exactly the values containing a `BigInt`, the concrete
  non-serializable JS value we use (`JSON.stringify(1n)` throws a
  `TypeError`, while functions and `undefined` are merely dropped).
* The JS `Map` backing `memoryMap` is an insertion-ordered association
  list with update-in-place-or-append `set`, matching `Map.prototype.set`;
  `Map.prototype.get` returns `undefined` both for an absent key and for a
  stored `undefined`, which the store's `get` observes with
  `val === undefined`.
* Errors thrown by the engine are `StoreError`; a user validator throws
  its own error object, which is never the engine's `notSerializable`
  error, hence the separate `validatorError` constructor.
* User hooks are functions returning a `HookOutcome`: they return
  normally, throw synchronously, or return a promise that later resolves
  or rejects.  The call-site pattern
  `try { void this.hooks.h?.(…) } catch (err) { console.error(…) }`
  is `dispatchHook`: a synchronous throw is caught and logged via
  `console.error`; `void` merely discards a returned promise, so a later
  rejection is not caught by the (synchronous) `try/catch` and becomes an
  unhandled promise rejection.
* The adapter reachable from the engine is modelled by its observable
  state: a record of persisted entries (`all()` enumerates them in
  insertion order) plus the optional backup capability.  `sync` also
  returns the ordered trace of `adapter.set` calls it makes.
* `syncIntervalMs` (a wall-clock timer calling `sync`) and `dispose`
  (which only clears that timer) have no effect on the map, the version
  or the adapter data, and are not modelled.
-/

/-- A JavaScript runtime value, as far as the store can observe it:
`undefined`, `null`, booleans, numbers, strings, BigInts (the concrete
value `JSON.stringify` throws on), arrays and plain objects. -/
inductive JsValue where
  | undef : JsValue
  | nullV : JsValue
  | boolV : Bool → JsValue
  | numV : Int → JsValue
  | strV : String → JsValue
  | bigintV : Int → JsValue
  | arrV : List JsValue → JsValue
  | objV : List (String × JsValue) → JsValue
deriving Repr

mutual

/-- `JSON.stringify v` throws iff `v` contains a BigInt anywhere in a
serialized position (cyclic values, the other throwing case in JS, are
not representable in an inductive type). -/
def containsBigint : JsValue → Bool
  | .bigintV _ => true
  | .arrV xs => containsBigintList xs
  | .objV fs => containsBigintFields fs
  | _ => false

def containsBigintList : List JsValue → Bool
  | [] => false
  | x :: xs => containsBigint x || containsBigintList xs

def containsBigintFields : List (String × JsValue) → Bool
  | [] => false
  | f :: fs => containsBigint f.2 || containsBigintFields fs

end

/-- JS `Map.prototype.get`: the value of the unique binding of `key`
(first binding in the list model). -/
def mapGet (key : String) : List (String × JsValue) → Option JsValue
  | [] => none
  | (k, v) :: rest => if k = key then some v else mapGet key rest

/-- JS `Map.prototype.set`: overwrite in place if present, else append. -/
def mapSet (key : String) (v : JsValue) :
    List (String × JsValue) → List (String × JsValue)
  | [] => [(key, v)]
  | (k, w) :: rest =>
    if k = key then (k, v) :: rest else (k, w) :: mapSet key v rest

/-- JS `Map.prototype.has`.  Note a stored `undefined` still counts as
present, as it does for a JS `Map`. -/
def mapHas (key : String) (m : List (String × JsValue)) : Bool :=
  (mapGet key m).isSome

/-- JS `Map.prototype.delete` (the removal; the Boolean return value is
unused by the store). -/
def mapDelete (key : String) : List (String × JsValue) → List (String × JsValue)
  | [] => []
  | (k, w) :: rest => if k = key then rest else (k, w) :: mapDelete key rest

/-- An error surfaced by a store operation.  `invalidKey` is
`Error("Key must be a string")`, `notSerializable` is
`Error("Value must be JSON serializable")`, and `validatorError m` is an
error object thrown by a user-supplied validator (never identical to the
engine's own error objects). -/
inductive StoreError where
  | invalidKey : StoreError
  | notSerializable : StoreError
  | validatorError : String → StoreError
deriving Repr, DecidableEq

/-- The `ValueValidator` contract: inspects a value and returns the value
to store, or throws (`Except.error` carries the thrown message). -/
def ValueValidator : Type := JsValue → Except String JsValue

/-- What a single hook invocation does, from the call site's viewpoint:
return normally, throw synchronously, or return a promise that later
resolves or rejects. -/
inductive HookOutcome where
  | retVoid : HookOutcome
  | syncThrow : String → HookOutcome
  | promiseResolved : HookOutcome
  | promiseRejected : String → HookOutcome
deriving Repr, DecidableEq

/-- Observable fallout of a hook invocation: messages printed with
`console.error` by the surrounding `catch`, and promise rejections that
nothing handles (they escape to the runtime's unhandled-rejection
channel, not to the store's caller). -/
structure HookEffects where
  logged : List String
  unhandledRejections : List String
deriving Repr, DecidableEq

/-- The call-site pattern `try { void hook?.(…) } catch (err) {
console.error(…, err) }` used by `set`, `delete` and `createBackup`:
no hook or a normal return does nothing; a synchronous throw is caught
and logged; a returned promise is discarded by `void`, so a later
rejection is neither caught nor logged here. -/
def dispatchHook : Option HookOutcome → HookEffects
  | none => ⟨[], []⟩
  | some .retVoid => ⟨[], []⟩
  | some (.syncThrow e) => ⟨[e], []⟩
  | some .promiseResolved => ⟨[], []⟩
  | some (.promiseRejected e) => ⟨[], [e]⟩

/-- The `KeyValueStoreHooks` configuration object. -/
structure KeyValueStoreHooks where
  onUpdate : Option (String → JsValue → HookOutcome)
  onDelete : Option (String → HookOutcome)
  onBackup : Option (Int → Int → HookOutcome)

/-- No hooks configured (the `{}` default). -/
def noHooks : KeyValueStoreHooks := ⟨none, none, none⟩

/-- Observable state of a configured adapter: the persisted record
(`all()` enumerates it in insertion order; `set` is
update-in-place-or-append, like a JS object/record) and whether the
adapter implements the optional `backup` capability. -/
structure AdapterState where
  data : List (String × JsValue)
  supportsBackup : Bool

/-- The mutable state of a `KeyValueStore` instance: `memoryMap`,
the optional adapter, the hooks and the `version` counter
(`-1` when versioning is disabled). -/
structure KeyValueStore where
  memoryMap : List (String × JsValue)
  adapter : Option AdapterState
  hooks : KeyValueStoreHooks
  version : Int

/-- `new KeyValueStore(config)`: empty map, adapter and hooks from the
config, `version = enableVersioning ? 0 : -1`.  (The `syncIntervalMs`
timer only schedules `sync` calls and is not part of the state.) -/
def KeyValueStore.new (adapter : Option AdapterState)
    (hooks : KeyValueStoreHooks) (enableVersioning : Bool) : KeyValueStore :=
  ⟨[], adapter, hooks, if enableVersioning then 0 else -1⟩

/-- `init()`: if an adapter is configured, load every entry of
`adapter.all()` into `memoryMap` (in enumeration order, via
`Map.prototype.set`), then, if `loadedData["__version__"]` is a number
and `this.version >= 0`, replace the version with it.  (The adapter's
own `init` is observed through the data it then enumerates.) -/
def KeyValueStore.init (s : KeyValueStore) : KeyValueStore :=
  match s.adapter with
  | none => s
  | some a =>
    let m := a.data.foldl (fun mp kv => mapSet kv.1 kv.2 mp) s.memoryMap
    match mapGet "__version__" a.data with
    | some (.numV n) =>
      if 0 ≤ s.version then ⟨m, s.adapter, s.hooks, n⟩
      else ⟨m, s.adapter, s.hooks, s.version⟩
    | _ => ⟨m, s.adapter, s.hooks, s.version⟩

/-- `get(key, options?)`: read the map; `val === undefined` (absent key,
or a stored `undefined`) returns `undefined`; otherwise the raw value, or
the validator's result when one is supplied (its throw propagates). -/
def KeyValueStore.get (s : KeyValueStore) (key : String)
    (validator : Option ValueValidator) : Except StoreError (Option JsValue) :=
  match mapGet key s.memoryMap with
  | none => .ok none
  | some .undef => .ok none
  | some v =>
    match validator with
    | none => .ok (some v)
    | some f =>
      match f v with
      | .ok w => .ok (some w)
      | .error e => .error (.validatorError e)

/-- The result of a successful `set`: the new store state, the returned
(validated) value, and the hook fallout. -/
structure SetResult where
  store : KeyValueStore
  returned : JsValue
  effects : HookEffects

/-- `set(key, value, options?)`: probe `JSON.stringify(value)` (throwing
`notSerializable` when it throws), run the validator on the raw value if
supplied (its throw propagates, untouched state), write the validated
value into the map with `Map.prototype.set`, increment the version if
`this.version >= 0`, fire `onUpdate` under `try { void … } catch`, and
return the validated value. -/
def KeyValueStore.set (s : KeyValueStore) (key : String) (value : JsValue)
    (validator : Option ValueValidator) : Except StoreError SetResult :=
  if containsBigint value then .error .notSerializable
  else
    match (match validator with | some f => f value | none => .ok value) with
    | .error e => .error (.validatorError e)
    | .ok validatedValue =>
      let m := mapSet key validatedValue s.memoryMap
      let v := if 0 ≤ s.version then s.version + 1 else s.version
      let eff := dispatchHook (s.hooks.onUpdate.map (fun f => f key validatedValue))
      .ok ⟨⟨m, s.adapter, s.hooks, v⟩, validatedValue, eff⟩

/-- The result of a `delete`: the new store state and the hook fallout. -/
structure DeleteResult where
  store : KeyValueStore
  effects : HookEffects

/-- `delete(key)`: when `memoryMap.has(key)`, remove the binding,
increment the version if `this.version >= 0`, and fire `onDelete` under
`try { void … } catch`; otherwise do nothing. -/
def KeyValueStore.delete (s : KeyValueStore) (key : String) : DeleteResult :=
  if mapHas key s.memoryMap then
    let m := mapDelete key s.memoryMap
    let v := if 0 ≤ s.version then s.version + 1 else s.version
    let eff := dispatchHook (s.hooks.onDelete.map (fun f => f key))
    ⟨⟨m, s.adapter, s.hooks, v⟩, eff⟩
  else ⟨s, ⟨[], []⟩⟩

/-- `sync()`: nothing without an adapter; otherwise write
`("__version__", version)` first when `this.version >= 0`, then every
in-memory entry whose key is not `"__version__"`, in map order, one
`adapter.set` call each.  Returns the new state and the ordered trace of
`adapter.set` calls. -/
def KeyValueStore.sync (s : KeyValueStore) :
    KeyValueStore × List (String × JsValue) :=
  match s.adapter with
  | none => (s, [])
  | some a =>
    let versionWrites :=
      if 0 ≤ s.version then [("__version__", JsValue.numV s.version)] else []
    let entryWrites := s.memoryMap.filter (fun kv => kv.1 != "__version__")
    let writes := versionWrites ++ entryWrites
    let a1 : AdapterState :=
      ⟨writes.foldl (fun d kv => mapSet kv.1 kv.2 d) a.data, a.supportsBackup⟩
    (⟨s.memoryMap, some a1, s.hooks, s.version⟩, writes)

/-- `createBackup()`: nothing unless the adapter exists and supports
`backup`; otherwise delegate to the adapter's backup (which snapshots the
durable medium without changing the persisted record) and fire `onBackup`
with `(Date.now(), version >= 0 ? version : 0)` under `try … catch`.
`now` stands for `Date.now()`. -/
def KeyValueStore.createBackup (s : KeyValueStore) (now : Int) :
    KeyValueStore × HookEffects :=
  match s.adapter with
  | none => (s, ⟨[], []⟩)
  | some a =>
    if a.supportsBackup then
      let backupVersion := if 0 ≤ s.version then s.version else 0
      (s, dispatchHook (s.hooks.onBackup.map (fun f => f now backupVersion)))
    else (s, ⟨[], []⟩)

/-- `getVersion()`. -/
def KeyValueStore.getVersion (s : KeyValueStore) : Int := s.version

/-- The state after a `set` call as seen by the caller's next operation:
the new state on success, the old state when `set` threw. -/
def applySet (s : KeyValueStore) (key : String) (value : JsValue)
    (validator : Option ValueValidator) : KeyValueStore :=
  match s.set key value validator with
  | .ok r => r.store
  | .error _ => s

example :
    (KeyValueStore.new none noHooks true).set "a" (.numV 7) none
      = .ok ⟨⟨[("a", .numV 7)], none, noHooks, 1⟩, .numV 7, ⟨[], []⟩⟩ := rfl
example :
    (applySet (KeyValueStore.new none noHooks true) "a" (.numV 7) none).get
      "a" none = .ok (some (.numV 7)) := rfl

/-! ## Association-list lemmas -/

theorem mapGet_mapSet_self (key : String) (v : JsValue)
    (m : List (String × JsValue)) : mapGet key (mapSet key v m) = some v := by
  induction m with
  | nil => simp [mapSet, mapGet]
  | cons kv rest ih =>
    by_cases hk : kv.1 = key
    · simp [mapSet, mapGet, hk]
    · cases kv with
      | mk k w => simp_all [mapSet, mapGet]

theorem mapGet_mapSet_ne (k key : String) (v : JsValue)
    (m : List (String × JsValue)) (hne : k ≠ key) :
    mapGet key (mapSet k v m) = mapGet key m := by
  induction m with
  | nil => simp [mapSet, mapGet, hne]
  | cons kv rest ih =>
    cases kv with
    | mk k0 w =>
      by_cases hk : k0 = k
      · subst hk; simp [mapSet, mapGet, hne]
      · simp [mapSet, mapGet, hk]
        by_cases hk2 : k0 = key <;> simp [hk2, ih]

theorem mapGet_foldl_not_mem (key : String) (l : List (String × JsValue))
    (m : List (String × JsValue)) (h : key ∉ l.map Prod.fst) :
    mapGet key (l.foldl (fun mp kv => mapSet kv.1 kv.2 mp) m) = mapGet key m := by
  induction l generalizing m with
  | nil => rfl
  | cons kv rest ih =>
    simp only [List.map_cons, List.mem_cons] at h
    push_neg at h
    simp only [List.foldl_cons]
    rw [ih _ h.2, mapGet_mapSet_ne _ _ _ _ (fun he => h.1 he.symm)]

theorem mapGet_foldl_of_nodup (key : String) (v : JsValue)
    (l : List (String × JsValue)) (m : List (String × JsValue))
    (hnd : (l.map Prod.fst).Nodup) (hget : mapGet key l = some v) :
    mapGet key (l.foldl (fun mp kv => mapSet kv.1 kv.2 mp) m) = some v := by
  induction l generalizing m with
  | nil => simp [mapGet] at hget
  | cons kv rest ih =>
    simp only [List.map_cons, List.nodup_cons] at hnd
    cases kv with
    | mk k0 w =>
      by_cases hk : k0 = key
      · subst hk
        simp only [mapGet, if_pos rfl] at hget
        cases hget
        simp only [List.foldl_cons]
        rw [mapGet_foldl_not_mem _ _ _ hnd.1, mapGet_mapSet_self]
      · simp only [mapGet, if_neg hk] at hget
        simp only [List.foldl_cons]
        exact ih _ hnd.2 hget

/-! ## Claims C1 - C3 -/

/-- C1: for every string key `k` and every JSON-serializable value `v`
(one `JSON.stringify` accepts and that is an actual JSON value, i.e. not
`undefined`), `set(k, v)` with no validator followed immediately by
`get(k)` with no validator returns a value deep-equal to `v`. -/
theorem spec_C1_set_then_get (s : KeyValueStore) (k : String) (v : JsValue)
    (hser : containsBigint v = false) (hundef : v ≠ .undef) :
    (applySet s k v none).get k none = .ok (some v) := by
  have h1 : applySet s k v none
      = ⟨mapSet k v s.memoryMap, s.adapter, s.hooks,
         if 0 ≤ s.version then s.version + 1 else s.version⟩ := by
    unfold applySet KeyValueStore.set
    simp [hser]
  rw [h1]
  unfold KeyValueStore.get
  simp only [mapGet_mapSet_self]

theorem spec_C1_witness :
    containsBigint (.numV 7) = false ∧ JsValue.numV 7 ≠ .undef ∧
    (applySet (KeyValueStore.new none noHooks false) "a" (.numV 7) none).get
      "a" none = .ok (some (.numV 7)) :=
  ⟨rfl, by simp,
   spec_C1_set_then_get (KeyValueStore.new none noHooks false) "a" (.numV 7)
     rfl (by simp)⟩

/-- C2: a validator that throws on `set(k, v)` leaves the whole store
state (the entry for `k`, the version counter, the rest of the map)
unchanged, and the error reaching the caller is the validator's own
error whenever the serialization probe on `v` passed (when the probe
fails, the `notSerializable` error propagates instead, the state still
untouched). -/
theorem spec_C2_validator_throw (s : KeyValueStore) (k : String)
    (v : JsValue) (f : ValueValidator) (e : String)
    (hf : f v = .error e) :
    applySet s k v (some f) = s ∧
    (containsBigint v = false →
      s.set k v (some f) = .error (.validatorError e)) := by
  constructor
  · unfold applySet KeyValueStore.set
    by_cases hb : containsBigint v <;> simp [hb, hf]
  · intro hser
    unfold KeyValueStore.set
    simp [hser, hf]

theorem spec_C2_witness :
    (fun _ => (.error "rejected" : Except String JsValue)) (JsValue.numV 3)
        = .error "rejected" ∧
    containsBigint (.numV 3) = false ∧
    applySet (KeyValueStore.new none noHooks true) "k" (.numV 3)
        (some (fun _ => .error "rejected"))
      = KeyValueStore.new none noHooks true ∧
    (KeyValueStore.new none noHooks true).set "k" (.numV 3)
        (some (fun _ => .error "rejected"))
      = .error (.validatorError "rejected") :=
  ⟨rfl, rfl,
   (spec_C2_validator_throw (KeyValueStore.new none noHooks true) "k"
     (.numV 3) (fun _ => .error "rejected") "rejected" rfl).1,
   (spec_C2_validator_throw (KeyValueStore.new none noHooks true) "k"
     (.numV 3) (fun _ => .error "rejected") "rejected" rfl).2 rfl⟩

/-- C3 counterexample: on a fresh versioning-enabled store,
`set("k", undefined)` does NOT behave as a delete: the map afterwards
HAS an entry for `"k"` (the claim says it has none), and the version
was incremented although a delete of the absent key `"k"` would have
been a no-op leaving the version at 0. -/
theorem spec_C3_counterexample :
    mapHas "k"
        (applySet (KeyValueStore.new none noHooks true) "k" .undef none).memoryMap
      = true ∧
    (applySet (KeyValueStore.new none noHooks true) "k" .undef none).version = 1 ∧
    ((KeyValueStore.new none noHooks true).delete "k").store.version = 0 :=
  ⟨rfl, rfl, rfl⟩

/-- C3 amended: `set(k, undefined)` stores an `undefined` marker rather
than deleting: the map gains/keeps an entry for `k` (holding
`undefined`), the version increments as for any update, and the
`onUpdate` hook fires — but through `get` the key is indistinguishable
from an absent one, since `get(k)` returns `undefined`. -/
theorem spec_C3_amended (s : KeyValueStore) (k : String) :
    s.set k .undef none
      = .ok ⟨⟨mapSet k .undef s.memoryMap, s.adapter, s.hooks,
              if 0 ≤ s.version then s.version + 1 else s.version⟩, .undef,
             dispatchHook (s.hooks.onUpdate.map (fun f => f k .undef))⟩ ∧
    mapHas k (applySet s k .undef none).memoryMap = true ∧
    (applySet s k .undef none).get k none = .ok none := by
  refine ⟨rfl, ?_, ?_⟩
  · unfold applySet KeyValueStore.set
    simp only [containsBigint]
    simp [mapHas, mapGet_mapSet_self]
  · unfold applySet KeyValueStore.set
    simp only [containsBigint]
    unfold KeyValueStore.get
    simp [mapGet_mapSet_self]

/-! ## Operation-level lemmas about the version counter -/

theorem applySet_version (s : KeyValueStore) (k : String) (v : JsValue)
    (val : Option ValueValidator) :
    (applySet s k v val).version = s.version ∨
      (0 ≤ s.version ∧ (applySet s k v val).version = s.version + 1) := by
  unfold applySet KeyValueStore.set
  by_cases hb : containsBigint v
  · left; simp [hb]
  · cases hval : (match val with | some f => f v | none => Except.ok v) with
    | error e => left; simp [hb, hval]
    | ok w =>
      by_cases hv : 0 ≤ s.version
      · right; exact ⟨hv, by simp [hb, hval, hv]⟩
      · left; simp [hb, hval, hv]

theorem delete_version (s : KeyValueStore) (k : String) :
    (s.delete k).store.version = s.version ∨
      (0 ≤ s.version ∧ (s.delete k).store.version = s.version + 1) := by
  unfold KeyValueStore.delete
  by_cases hh : mapHas k s.memoryMap
  · by_cases hv : 0 ≤ s.version
    · right; exact ⟨hv, by simp [hh, hv]⟩
    · left; simp [hh, hv]
  · left; simp [hh]

theorem sync_version (s : KeyValueStore) : s.sync.1.version = s.version := by
  unfold KeyValueStore.sync
  cases s.adapter <;> simp

theorem createBackup_fst (s : KeyValueStore) (now : Int) :
    (s.createBackup now).1 = s := by
  unfold KeyValueStore.createBackup
  cases s.adapter with
  | none => rfl
  | some a0 => by_cases hb : a0.supportsBackup <;> simp [hb]

theorem init_version_cases (s : KeyValueStore) :
    s.init.version = s.version ∨
      (0 ≤ s.version ∧ ∃ a n, s.adapter = some a ∧
        mapGet "__version__" a.data = some (.numV n) ∧ s.init.version = n) := by
  unfold KeyValueStore.init
  cases hA : s.adapter with
  | none => left; rfl
  | some a0 =>
    cases hg : mapGet "__version__" a0.data with
    | none => left; simp [hg]
    | some w =>
      cases w
      case numV n =>
        by_cases hv : 0 ≤ s.version
        · right; refine ⟨hv, a0, n, rfl, hg, ?_⟩; simp [hg, hv]
        · left; simp [hg, hv]
      all_goals left; simp [hg]

/-! ## Claim C4 -/

/-- C4 counterexample: on a store constructed with versioning enabled,
using only the store's own operations (`init`, `set`, `sync`, `set`),
the version counter reaches 2 with the adapter holding the persisted
counter 1; a further `init` reloads that persisted counter, so the
operation `init` strictly decreases the version of a versioning-enabled
store from 2 to 1. -/
theorem spec_C4_counterexample :
    let s2 := applySet (KeyValueStore.new (some ⟨[], false⟩) noHooks true).init
                "a" (.numV 1) none
    let s4 := applySet s2.sync.1 "a" (.numV 2) none
    s4.version = 2 ∧ s4.init.version = 1 :=
  ⟨rfl, rfl⟩

/-- C4 amended: construction yields version `-1` (disabled) or `0`
(enabled); a disabled store's version stays `-1` across every operation,
`init` included; an enabled store's version stays non-negative and never
decreases across `set`, `delete`, `sync` and `createBackup` — but `init`
may replace it with whatever numeric value the adapter persists under
`"__version__"`, which can be smaller than the current counter, so
monotonicity does not extend across `init`. -/
theorem spec_C4_amended (a : Option AdapterState) (h : KeyValueStoreHooks)
    (s : KeyValueStore) (k : String) (v : JsValue)
    (val : Option ValueValidator) (now : Int) :
    (KeyValueStore.new a h false).version = -1 ∧
    (KeyValueStore.new a h true).version = 0 ∧
    (s.version = -1 →
      s.init.version = -1 ∧ (applySet s k v val).version = -1 ∧
      (s.delete k).store.version = -1 ∧ s.sync.1.version = -1 ∧
      (s.createBackup now).1.version = -1) ∧
    (0 ≤ s.version →
      s.version ≤ (applySet s k v val).version ∧
      0 ≤ (applySet s k v val).version ∧
      s.version ≤ (s.delete k).store.version ∧
      0 ≤ (s.delete k).store.version ∧
      s.sync.1.version = s.version ∧
      (s.createBackup now).1.version = s.version) := by
  refine ⟨rfl, rfl, ?_, ?_⟩
  · intro hdis
    refine ⟨?_, ?_, ?_, ?_, ?_⟩
    · rcases init_version_cases s with hc | ⟨hpos, _⟩
      · omega
      · omega
    · rcases applySet_version s k v val with hc | ⟨hpos, _⟩ <;> omega
    · rcases delete_version s k with hc | ⟨hpos, _⟩ <;> omega
    · rw [sync_version]; exact hdis
    · rw [createBackup_fst]; exact hdis
  · intro hen
    refine ⟨?_, ?_, ?_, ?_, ?_, ?_⟩
    · rcases applySet_version s k v val with hc | ⟨hpos, hc⟩ <;> omega
    · rcases applySet_version s k v val with hc | ⟨hpos, hc⟩ <;> omega
    · rcases delete_version s k with hc | ⟨hpos, hc⟩ <;> omega
    · rcases delete_version s k with hc | ⟨hpos, hc⟩ <;> omega
    · exact sync_version s
    · rw [createBackup_fst]

theorem spec_C4_witness :
    (KeyValueStore.new none noHooks true).version = 0 ∧
    ((KeyValueStore.new none noHooks false).version = -1 ∧
      (applySet (KeyValueStore.new none noHooks false) "a" (.numV 1)
        none).version = -1) ∧
    (0 ≤ (KeyValueStore.new none noHooks true).version ∧
      (KeyValueStore.new none noHooks true).version ≤
        (applySet (KeyValueStore.new none noHooks true) "a" (.numV 1)
          none).version) :=
  ⟨(spec_C4_amended none noHooks (KeyValueStore.new none noHooks true)
      "a" (.numV 1) none 0).2.1,
   ⟨(spec_C4_amended none noHooks (KeyValueStore.new none noHooks false)
       "a" (.numV 1) none 0).1,
    ((spec_C4_amended none noHooks (KeyValueStore.new none noHooks false)
       "a" (.numV 1) none 0).2.2.1 rfl).2.1⟩,
   ⟨by decide,
    ((spec_C4_amended none noHooks (KeyValueStore.new none noHooks true)
       "a" (.numV 1) none 0).2.2.2 (by decide)).1⟩⟩

/-! ## Claim C5 -/

/-- A `set` or `delete` call, as issued by a caller of the store
(`set` with no validator, as in the claim). -/
inductive KVOp where
  | setOp : String → JsValue → KVOp
  | delOp : String → KVOp

/-- Run one operation, keeping the prior state when `set` throws. -/
def applyOp (s : KeyValueStore) : KVOp → KeyValueStore
  | .setOp k v => applySet s k v none
  | .delOp k => (s.delete k).store

/-- Run a sequence of `set`/`delete` calls. -/
def runOps (s : KeyValueStore) : List KVOp → KeyValueStore
  | [] => s
  | op :: rest => runOps (applyOp s op) rest

/-- How much one call increments the version of a versioning-enabled
store: every non-throwing `set` by 1 (even one rewriting an identical
value), a `delete` by 1 exactly when the key is present. -/
def incOf (s : KeyValueStore) : KVOp → Nat
  | .setOp _ v => if containsBigint v then 0 else 1
  | .delOp k => if mapHas k s.memoryMap then 1 else 0

/-- Total version increment along a sequence of calls. -/
def countIncs (s : KeyValueStore) : List KVOp → Nat
  | [] => 0
  | op :: rest => incOf s op + countIncs (applyOp s op) rest

/-- C5 counterexample: on a fresh versioning-enabled store, the two
calls `set("k", 1); set("k", 1)` leave the version at 2, yet only the
first call changed the in-memory map (the second rewrote an identical
value, leaving the map equal), so the version (2) differs from the
number of calls that caused an observable map change (1). -/
theorem spec_C5_counterexample :
    let t0 := KeyValueStore.new none noHooks true
    let t1 := applySet t0 "k" (.numV 1) none
    let t2 := applySet t1 "k" (.numV 1) none
    t2.version = 2 ∧ t2.memoryMap = t1.memoryMap ∧
      t1.memoryMap ≠ t0.memoryMap :=
  ⟨rfl, rfl, fun hh => absurd (congrArg List.length hh) (by decide)⟩

theorem applyOp_version (s : KeyValueStore) (op : KVOp) (h : 0 ≤ s.version) :
    (applyOp s op).version = s.version + incOf s op ∧
      0 ≤ (applyOp s op).version := by
  cases op with
  | setOp k v =>
    simp only [applyOp, incOf]
    unfold applySet KeyValueStore.set
    by_cases hb : containsBigint v
    · simp [hb]; omega
    · simp [hb, h]; omega
  | delOp k =>
    simp only [applyOp, incOf]
    unfold KeyValueStore.delete
    by_cases hh : mapHas k s.memoryMap
    · simp [hh, h]; omega
    · simp [hh]; omega

/-- C5 amended: for a versioning-enabled store (and no adapter reloading
a persisted counter), after any sequence of `set`/`delete` calls the
version equals its starting value plus the number of calls the code
counts: every `set` that does not throw (including a `set` rewriting an
identical value, which changes nothing observable in the map), plus
every `delete` whose key was present; deletes of absent keys and
throwing sets do not increment. -/
theorem spec_C5_amended (ops : List KVOp) (s : KeyValueStore)
    (h : 0 ≤ s.version) :
    (runOps s ops).version = s.version + countIncs s ops := by
  induction ops generalizing s with
  | nil => simp [runOps, countIncs]
  | cons op rest ih =>
    simp only [runOps, countIncs]
    obtain ⟨hv, hnn⟩ := applyOp_version s op h
    rw [ih _ hnn, hv]
    push_cast
    ring

theorem spec_C5_witness :
    0 ≤ (KeyValueStore.new none noHooks true).version ∧
    (runOps (KeyValueStore.new none noHooks true)
        [.setOp "count" (.numV 1), .setOp "count" (.numV 2),
         .delOp "count", .delOp "count"]).version
      = (KeyValueStore.new none noHooks true).version +
        countIncs (KeyValueStore.new none noHooks true)
          [.setOp "count" (.numV 1), .setOp "count" (.numV 2),
           .delOp "count", .delOp "count"] :=
  ⟨by decide,
   spec_C5_amended
     [.setOp "count" (.numV 1), .setOp "count" (.numV 2),
      .delOp "count", .delOp "count"]
     (KeyValueStore.new none noHooks true) (by decide)⟩

example :
    (runOps (KeyValueStore.new none noHooks true)
        [.setOp "count" (.numV 1), .setOp "count" (.numV 2),
         .delOp "count", .delOp "count"]).version = 3 := rfl

/-! ## Claim C6 -/

/-- C6: with no adapter, `sync()` is a no-op; with an adapter, the
ordered trace of `adapter.set` calls made by `sync()` is the version
counter under the reserved key `"__version__"` first (only when
versioning is enabled), followed by every in-memory entry except the
reserved key, one key at a time in map order. -/
theorem spec_C6_sync (s : KeyValueStore) :
    (s.adapter = none → s.sync = (s, [])) ∧
    (∀ a, s.adapter = some a →
      s.sync.2
        = (if 0 ≤ s.version then [("__version__", JsValue.numV s.version)]
           else [])
          ++ s.memoryMap.filter (fun kv => kv.1 != "__version__")) := by
  constructor
  · intro hA
    unfold KeyValueStore.sync
    rw [hA]
  · intro a hA
    unfold KeyValueStore.sync
    rw [hA]

theorem spec_C6_witness :
    (KeyValueStore.new none noHooks true).adapter = none ∧
    (KeyValueStore.new none noHooks true).sync
      = (KeyValueStore.new none noHooks true, []) ∧
    (⟨[("x", .numV 1), ("__version__", .numV 9), ("y", .numV 2)],
      some ⟨[], false⟩, noHooks, 5⟩ : KeyValueStore).adapter
      = some ⟨[], false⟩ ∧
    (⟨[("x", .numV 1), ("__version__", .numV 9), ("y", .numV 2)],
      some ⟨[], false⟩, noHooks, 5⟩ : KeyValueStore).sync.2
      = [("__version__", .numV 5), ("x", .numV 1), ("y", .numV 2)] :=
  ⟨rfl,
   (spec_C6_sync (KeyValueStore.new none noHooks true)).1 rfl,
   rfl,
   by
     rw [(spec_C6_sync _).2 ⟨[], false⟩ rfl]
     rfl⟩

/-! ## Claim C7 -/

/-- C7 counterexample: an `onUpdate` hook whose pending completion
rejects.  The triggering `set` completes normally (map updated, value
returned), but the rejection is NOT caught at the call site and NOT
logged (`logged = []`): `void` discards the promise, whose rejection
escapes as an unhandled rejection — refuting the claim that any raised
hook failure, including a rejected pending completion, is caught at the
call site and logged. -/
theorem spec_C7_counterexample :
    let h : KeyValueStoreHooks :=
      ⟨some (fun _ _ => .promiseRejected "boom"), none, none⟩
    let s := KeyValueStore.new none h false
    s.set "k" (.numV 1) none
      = .ok ⟨⟨[("k", .numV 1)], none, h, -1⟩, .numV 1, ⟨[], ["boom"]⟩⟩ :=
  rfl

/-- C7 amended: hook outcomes never reach the triggering operation: the
map, version and return value of `set`/`delete`/`createBackup` are what
they are with no hooks at all, whatever the hook does.  A synchronous
hook throw is caught at the call site and logged.  A rejected pending
completion, however, is not caught there and not logged: `void` discards
the promise, and the rejection surfaces as an unhandled promise
rejection (still without altering the operation's result). -/
theorem spec_C7_amended (s : KeyValueStore) (k : String) (v : JsValue)
    (e : String) (now : Int) (hser : containsBigint v = false) :
    ((s.set k v none).map (fun r => (r.store.memoryMap, r.store.version, r.returned))
        = .ok (mapSet k v s.memoryMap,
               (if 0 ≤ s.version then s.version + 1 else s.version), v)) ∧
    ((s.set k v none).map (fun r => r.effects)
        = .ok (dispatchHook (s.hooks.onUpdate.map (fun f => f k v)))) ∧
    ((s.delete k).store.memoryMap
        = if mapHas k s.memoryMap then mapDelete k s.memoryMap
          else s.memoryMap) ∧
    ((s.delete k).effects
        = if mapHas k s.memoryMap
          then dispatchHook (s.hooks.onDelete.map (fun f => f k))
          else ⟨[], []⟩) ∧
    ((s.createBackup now).1 = s) ∧
    dispatchHook (some (.syncThrow e)) = ⟨[e], []⟩ ∧
    dispatchHook (some (.promiseRejected e)) = ⟨[], [e]⟩ := by
  refine ⟨?_, ?_, ?_, ?_, createBackup_fst s now, rfl, rfl⟩
  · unfold KeyValueStore.set
    simp [hser, Except.map]
  · unfold KeyValueStore.set
    simp [hser, Except.map]
  · unfold KeyValueStore.delete
    by_cases hh : mapHas k s.memoryMap <;> simp [hh]
  · unfold KeyValueStore.delete
    by_cases hh : mapHas k s.memoryMap <;> simp [hh]

theorem spec_C7_witness :
    containsBigint (.numV 1) = false ∧
    (((KeyValueStore.new none
          ⟨some (fun _ _ => .syncThrow "hookfail"), none, none⟩
          true).set "k" (.numV 1) none).map (fun r => r.effects)
        = .ok (dispatchHook ((some (fun _ _ => HookOutcome.syncThrow
              "hookfail")
            : Option (String → JsValue → HookOutcome)).map
            (fun f => f "k" (.numV 1))))) ∧
    dispatchHook (some (.syncThrow "hookfail")) = ⟨["hookfail"], []⟩ :=
  ⟨rfl,
   (spec_C7_amended (KeyValueStore.new none
      ⟨some (fun _ _ => .syncThrow "hookfail"), none, none⟩ true)
      "k" (.numV 1) "hookfail" 0 rfl).2.1,
   (spec_C7_amended (KeyValueStore.new none
      ⟨some (fun _ _ => .syncThrow "hookfail"), none, none⟩ true)
      "k" (.numV 1) "hookfail" 0 rfl).2.2.2.2.2.1⟩

/-! ## Claim C8: `FileAdapter.init` -/

/-- What reading and parsing the JSON document at `filePath` yields:
the read itself throws (`missing`: no file, unreadable), `JSON.parse`
throws (`unparsable`), or a parsed root value. -/
inductive FileReadResult where
  | missing : FileReadResult
  | unparsable : FileReadResult
  | content : JsValue → FileReadResult

/-- Outcome of `FileAdapter.init`: the resulting in-memory cache and
whether `writeFile()` was called (persisting the cache to disk). -/
structure FileInitOutcome where
  cache : JsValue
  wroteFile : Bool
deriving Repr

/-- `typeof v === "object"` in JS: true for plain objects, arrays and
`null`. -/
def jsTypeofObject : JsValue → Bool
  | .objV _ => true
  | .arrV _ => true
  | .nullV => true
  | _ => false

/-- `FileAdapter.init()`: a throwing read or parse lands in the `catch`,
which resets the cache to `{}` and calls `writeFile()`.  A successful
parse assigns the root to the cache; then
`if (typeof this.cache !== "object" || this.cache === null)` resets the
cache to `{}` — with no write.  Since `typeof` is `"object"` exactly for
objects, arrays and `null`, and `null` is then caught by the `=== null`
test, the roots kept are exactly objects and arrays. -/
def FileAdapter.init : FileReadResult → FileInitOutcome
  | .missing => ⟨.objV [], true⟩
  | .unparsable => ⟨.objV [], true⟩
  | .content v =>
    match v with
    | .objV fs => ⟨.objV fs, false⟩
    | .arrV xs => ⟨.arrV xs, false⟩
    | _ => ⟨.objV [], false⟩

/-- C8 counterexample: a file whose content parses to the number `42`
(a non-object root).  `init` resets the cache to empty but does NOT
persist an empty document (`wroteFile = false`), contrary to the claim;
moreover a file parsing to the array `[1]` is not even reset — the array
is kept as the cache. -/
theorem spec_C8_counterexample :
    FileAdapter.init (.content (.numV 42)) = ⟨.objV [], false⟩ ∧
    FileAdapter.init (.content (.arrV [.numV 1]))
      = ⟨.arrV [.numV 1], false⟩ :=
  ⟨rfl, rfl⟩

/-- C8 amended: `init` loads the parsed document when its root is an
object (or an array, which JS `typeof` also classifies as `"object"`);
when the read or the parse throws, it resets the cache to empty and
immediately persists an empty document; when the content parses but the
root is a primitive or `null`, it resets the cache to empty WITHOUT
persisting anything. -/
theorem spec_C8_amended (v : JsValue) :
    FileAdapter.init .missing = ⟨.objV [], true⟩ ∧
    FileAdapter.init .unparsable = ⟨.objV [], true⟩ ∧
    (FileAdapter.init (.content v)).wroteFile = false ∧
    ((∃ fs, v = .objV fs) ∨ (∃ xs, v = .arrV xs) →
      (FileAdapter.init (.content v)).cache = v) ∧
    (jsTypeofObject v = false ∨ v = .nullV →
      (FileAdapter.init (.content v)).cache = .objV []) := by
  refine ⟨rfl, rfl, ?_, ?_, ?_⟩
  · cases v <;> rfl
  · rintro (⟨fs, rfl⟩ | ⟨xs, rfl⟩) <;> rfl
  · rintro (ht | rfl)
    · cases v <;> simp_all [jsTypeofObject, FileAdapter.init]
    · rfl

theorem spec_C8_witness :
    (∃ fs, JsValue.objV [("a", .numV 1)] = .objV fs) ∧
    (FileAdapter.init (.content (.objV [("a", .numV 1)]))).cache
      = .objV [("a", .numV 1)] ∧
    jsTypeofObject (.strV "oops") = false ∧
    (FileAdapter.init (.content (.strV "oops"))).cache = .objV [] :=
  ⟨⟨[("a", .numV 1)], rfl⟩,
   (spec_C8_amended (.objV [("a", .numV 1)])).2.2.2.1
     (Or.inl ⟨[("a", .numV 1)], rfl⟩),
   rfl,
   (spec_C8_amended (.strV "oops")).2.2.2.2 (Or.inl rfl)⟩

/-! ## Claim C9 -/

/-- C9: for a versioning-enabled store over an adapter whose persisted
record (with its unique keys) contains the reserved key `"__version__"`
with a numeric value, `init()` loads that reserved key into the
in-memory map like any other entry — nothing filters it out — so a
subsequent `get("__version__")` returns the persisted counter value
through the public interface (and the counter itself is restored). -/
theorem spec_C9_reserved_key_loaded (d : List (String × JsValue)) (b : Bool)
    (h : KeyValueStoreHooks) (n : Int)
    (hnd : (d.map Prod.fst).Nodup)
    (hv : mapGet "__version__" d = some (.numV n)) :
    mapHas "__version__"
        ((KeyValueStore.new (some ⟨d, b⟩) h true).init).memoryMap = true ∧
    ((KeyValueStore.new (some ⟨d, b⟩) h true).init).get "__version__" none
      = .ok (some (.numV n)) ∧
    ((KeyValueStore.new (some ⟨d, b⟩) h true).init).version = n := by
  have hmap : ((KeyValueStore.new (some ⟨d, b⟩) h true).init).memoryMap
      = d.foldl (fun mp kv => mapSet kv.1 kv.2 mp) [] := by
    unfold KeyValueStore.init KeyValueStore.new
    dsimp only
    rw [hv]
    rfl
  have hgot : mapGet "__version__"
      ((KeyValueStore.new (some ⟨d, b⟩) h true).init).memoryMap
      = some (.numV n) := by
    rw [hmap]
    exact mapGet_foldl_of_nodup _ _ _ _ hnd hv
  refine ⟨?_, ?_, ?_⟩
  · rw [mapHas, hgot]; rfl
  · unfold KeyValueStore.get
    rw [hgot]
  · unfold KeyValueStore.init KeyValueStore.new
    dsimp only
    rw [hv]
    rfl

theorem spec_C9_witness :
    ([("__version__", JsValue.numV 5), ("a", .strV "x")].map
        Prod.fst).Nodup ∧
    mapGet "__version__" [("__version__", JsValue.numV 5), ("a", .strV "x")]
      = some (.numV 5) ∧
    ((KeyValueStore.new
        (some ⟨[("__version__", .numV 5), ("a", .strV "x")], false⟩)
        noHooks true).init).get "__version__" none
      = .ok (some (.numV 5)) :=
  ⟨by decide, rfl,
   (spec_C9_reserved_key_loaded
      [("__version__", .numV 5), ("a", .strV "x")] false noHooks 5
      (by decide) rfl).2.1⟩

/-! ## Claim C10 -/

/-- C10: `set` raises the not-serializable error iff `JSON.stringify`
on the raw input value throws (iff the value contains a BigInt), the
probe runs before the validator (a throwing-input validator is never
reached when the probe fails), and the validator's returned value is
never probed: a validator returning a non-serializable value (a BigInt)
makes `set` succeed, return it, and store it in the map. -/
theorem spec_C10_probe (s : KeyValueStore) (k : String) (v : JsValue)
    (val : Option ValueValidator) (f : ValueValidator) :
    (s.set k v val = .error .notSerializable ↔ containsBigint v = true) ∧
    (containsBigint v = true →
      s.set k v (some f) = .error .notSerializable) ∧
    (containsBigint v = false →
      s.set k v (some (fun _ => .ok (.bigintV 7)))
        = .ok ⟨⟨mapSet k (.bigintV 7) s.memoryMap, s.adapter, s.hooks,
                if 0 ≤ s.version then s.version + 1 else s.version⟩,
               .bigintV 7,
               dispatchHook (s.hooks.onUpdate.map
                 (fun g => g k (.bigintV 7)))⟩) := by
  refine ⟨?_, ?_, ?_⟩
  · constructor
    · intro he
      by_contra hb
      rw [Bool.not_eq_true] at hb
      unfold KeyValueStore.set at he
      cases hval : (match val with | some g => g v | none => Except.ok v) with
      | error e => simp [hb, hval] at he
      | ok w => simp [hb, hval] at he
    · intro hb
      unfold KeyValueStore.set
      simp [hb]
  · intro hb
    unfold KeyValueStore.set
    simp [hb]
  · intro hb
    unfold KeyValueStore.set
    simp [hb]

theorem spec_C10_witness :
    ((KeyValueStore.new none noHooks true).set "k" (.bigintV 3) none
        = .error .notSerializable ↔ containsBigint (.bigintV 3) = true) ∧
    containsBigint (.numV 1) = false ∧
    (KeyValueStore.new none noHooks true).set "k" (.numV 1)
        (some (fun _ => .ok (.bigintV 7)))
      = .ok ⟨⟨[("k", .bigintV 7)], none, noHooks, 1⟩, .bigintV 7,
             ⟨[], []⟩⟩ :=
  ⟨(spec_C10_probe (KeyValueStore.new none noHooks true) "k" (.bigintV 3)
      none (fun x => .ok x)).1,
   rfl,
   by
     rw [(spec_C10_probe (KeyValueStore.new none noHooks true) "k"
        (.numV 1) none (fun x => .ok x)).2.2 rfl]
     rfl⟩
